import Mathlib

/-!
Verification of the vocabulary-assessment quiz application (HSK / IELTS / DELE).

The development embeds, as Lean definitions, the pure computational core of:
 - `src/components/ResultsScreen.tsx` (score, per-level accuracy, level estimate),
 - `src/services/geminiService.ts` (`shuffleArray`, `generateQuizQuestions`),
 - `src/components/QuizScreen.tsx` (`handleAnswerSelect`, `handlePlayPauseToggle`).

Modelling conventions:
 - JavaScript numbers used for scores / accuracies are embedded as exact
   rationals (`ℚ`); `Math.round` is the Mathlib `round` (both are floor of x + 1/2
   on the nonnegative values that occur here).
 - The `level` field of a question (`number | string` in the source) is embedded as
   the string `String(level)` produces: the results screen only ever consumes
   levels through `String(q.level)`, and the `LEVEL_ORDER` tables below carry
   the stringified images of the source tables.
 - `Math.random()` draws are abstracted as an explicit index-choice function
   supplied to the shuffle.
 - Effects (audio cues, the `onFinish` callback, console logging) are returned
   as explicit data from the transition functions that would perform them.
-/

namespace Quiz

/-- Question record from `types.ts`: prompt text, answer options, correct
answer, difficulty level (stringified), optional context sentence. -/
structure Question where
  questionText : String
  options : List String
  correctAnswer : String
  level : String
  contextSentence : Option String
deriving DecidableEq

/-- UserAnswer record from `types.ts`: index of the question answered and the
chosen option string. -/
structure UserAnswer where
  questionIndex : Nat
  answer : String
deriving DecidableEq

/-- Language track enumeration from `types.ts`. -/
inductive Language where
  | hsk
  | ielts
  | dele
deriving DecidableEq

/-- Ordered level list per track, from `LEVEL_ORDER` in `ResultsScreen.tsx`
(numeric entries stringified, since the estimator consumes them through
`String(level)`). -/
def LEVEL_ORDER : Language → List String
  | .hsk => ["1", "2", "3", "4", "5", "6"]
  | .ielts => ["4", "4.5", "5", "5.5", "6", "6.5", "7", "7.5", "8", "8.5", "9"]
  | .dele => ["A1", "A2", "B1", "B2", "C1", "C2"]

/-- Count of user answers matching the correct answer of their question, from
`ResultsScreen.tsx` line 26 (`userAnswers.filter(...).length`). An answer whose
index is out of range matches nothing (the source would fault there; the
claims only concern in-range answer lists). -/
def correctAnswersCount (questions : List Question) (userAnswers : List UserAnswer) : Nat :=
  (userAnswers.filter (fun ua =>
    match questions.get? ua.questionIndex with
    | some q => q.correctAnswer == ua.answer
    | none => false)).length

/-- Raw score from `ResultsScreen.tsx` line 27:
`Math.round((correctAnswersCount / questions.length) * 100)`. `Math.round x`
is `⌊x + 1/2⌋` on the nonnegative values that occur here; the lemma
`calculatedScore_eq_round` below identifies this with the Mathlib `round`. -/
def calculatedScore (questions : List Question) (userAnswers : List UserAnswer) : ℤ :=
  ⌊((correctAnswersCount questions userAnswers : ℚ) / (questions.length : ℚ)) * 100 + 1 / 2⌋

/-- The embedded score is the round-to-nearest (ties up) of the percentage. -/
theorem calculatedScore_eq_round (questions : List Question) (userAnswers : List UserAnswer) :
    calculatedScore questions userAnswers =
      round (((correctAnswersCount questions userAnswers : ℚ) / (questions.length : ℚ)) * 100) := by
  rw [round_eq, calculatedScore]

/-- Per-level totals from `ResultsScreen.tsx` lines 32-35 (`totalByLevel`):
number of questions whose stringified level equals `lv`. -/
def totalByLevel (questions : List Question) (lv : String) : Nat :=
  (questions.filter (fun q => q.level == lv)).length

/-- Per-level correct counts from `ResultsScreen.tsx` lines 37-43
(`correctByLevel`): number of user answers that are correct and whose
stringified level of the question equals `lv`. -/
def correctByLevel (questions : List Question) (userAnswers : List UserAnswer) (lv : String) : Nat :=
  (userAnswers.filter (fun ua =>
    match questions.get? ua.questionIndex with
    | some q => q.correctAnswer == ua.answer && q.level == lv
    | none => false)).length

/-- Accuracy at a level, from `ResultsScreen.tsx` line 53:
`totalByLevel[levelStr] > 0 ? (correctByLevel[levelStr] || 0) / totalByLevel[levelStr] : 0`.
A level with no questions has accuracy 0. -/
def levelAccuracy (questions : List Question) (userAnswers : List UserAnswer) (lv : String) : ℚ :=
  if 0 < totalByLevel questions lv then
    (correctByLevel questions userAnswers lv : ℚ) / (totalByLevel questions lv : ℚ)
  else 0

/-- Pass test for a level: the `accuracy >= 0.6` comparison of
`ResultsScreen.tsx` line 54, with 0.6 as the exact rational 3/5. -/
def passesLevel (questions : List Question) (userAnswers : List UserAnswer) (lv : String) : Bool :=
  decide ((3 / 5 : ℚ) ≤ levelAccuracy questions userAnswers lv)

/-- Loop body of `ResultsScreen.tsx` lines 50-59: walk the remaining levels,
carrying the last passed level; on the first level that fails the threshold,
break and keep the accumulator. -/
def passedLevelAux (questions : List Question) (userAnswers : List UserAnswer) :
    List String → Option String → Option String
  | [], acc => acc
  | lv :: rest, acc =>
    if passesLevel questions userAnswers lv then
      passedLevelAux questions userAnswers rest (some lv)
    else acc

/-- The `passedLevel` value computed by the loop of `ResultsScreen.tsx`
lines 49-59, starting from `null`. -/
def passedLevel (questions : List Question) (userAnswers : List UserAnswer) (lang : Language) :
    Option String :=
  passedLevelAux questions userAnswers (LEVEL_ORDER lang) none

/-- Final estimated level string, from the `switch` of `ResultsScreen.tsx`
lines 61-77: the passed level when one exists (every entry of the order lists
is JS-truthy), otherwise the language floor when the raw score exceeds 20,
otherwise the below-minimum label. -/
def finalLevel (questions : List Question) (userAnswers : List UserAnswer) (lang : Language) :
    String :=
  match passedLevel questions userAnswers lang with
  | some lv => lv
  | none =>
    match lang with
    | .hsk => if 20 < calculatedScore questions userAnswers then "1" else "Below 1"
    | .ielts => if 20 < calculatedScore questions userAnswers then "4.0" else "Below 4.0"
    | .dele => if 20 < calculatedScore questions userAnswers then "A1" else "Below A1"

/-- Specification-side scan, written from the words of the spec: walk the ordered
level list from lowest to highest, stop at the first level failing the 0.6
threshold, and return the highest passed level. -/
def specEstimateScan (questions : List Question) (userAnswers : List UserAnswer) :
    List String → Option String
  | [] => none
  | lv :: rest =>
    if passesLevel questions userAnswers lv then
      some ((specEstimateScan questions userAnswers rest).getD lv)
    else none

/-- Specification-side notion of the maximum level present in the question
set, taken along the ascending level order of the track: the last level of the
order list at which at least one question exists. -/
def maxLevelPresent (questions : List Question) : List String → Option String
  | [] => none
  | lv :: rest =>
    match maxLevelPresent questions rest with
    | some m => some m
    | none => if 0 < totalByLevel questions lv then some lv else none

/-- Element swap used by the shuffle loop body of `geminiService.ts` line 15:
`[shuffled[i], shuffled[j]] = [shuffled[j], shuffled[i]]` (read both, then
write both). Out-of-range indices leave the list unchanged; the source only
ever swaps in-range indices (`i < length`, `j ≤ i`). -/
def swapJS {α : Type} (l : List α) (i j : Nat) : List α :=
  match l.get? i, l.get? j with
  | some a, some b => (l.set i b).set j a
  | _, _ => l

/-- Descending loop of `shuffleArray` (`geminiService.ts` lines 13-16): the
argument is the current loop index `i`; each step swaps position `i` with the
chosen position `rnd i` and continues with `i - 1`, stopping at `i = 0`. -/
def shuffleAux {α : Type} (rnd : Nat → Nat) : Nat → List α → List α
  | 0, l => l
  | i + 1, l => shuffleAux rnd i (swapJS l (i + 1) (rnd (i + 1)))

/-- Fisher-Yates shuffle from `geminiService.ts` lines 10-18, over a copy of
the input. `rnd i` stands for the draw `Math.floor(Math.random() * (i + 1))`
made when the loop index is `i`; the draws of the source always satisfy
`rnd i ≤ i`. -/
def shuffleArray {α : Type} (rnd : Nat → Nat) (array : List α) : List α :=
  shuffleAux rnd (array.length - 1) array

/-- Post-processing of parsed questions from `geminiService.ts` lines 93-101:
shuffle the options of each question (independently: the question at list position
`k` uses the draw function `rnd k`), then keep only questions with exactly 4
options that contain the correct answer. -/
def processQuestions (rnd : Nat → Nat → Nat) (questions : List Question) : List Question :=
  (questions.enum.map (fun p =>
    { p.2 with options := shuffleArray (rnd p.1) p.2.options })).filter
    (fun q => q.options.length == 4 && q.options.contains q.correctAnswer)

/-- Outcome of the provider call `ai.models.generateContent` awaited in
`generateQuizQuestions`: either a response whose `text` field is the given
string, or a thrown provider error. -/
inductive ProviderResult where
  | ok (text : String)
  | err
deriving DecidableEq

/-- JS truthiness of `process.env.API_KEY`: an absent variable and the empty
string are both falsy. -/
def jsTruthyKey : Option String → Bool
  | none => false
  | some s => !(s == "")

/-- The `.trim()` call of `geminiService.ts` line 87: strip leading and
trailing whitespace (written with structural recursion so that it evaluates
inside the kernel, unlike `String.trim`). -/
def jsTrim (s : String) : String :=
  String.mk (((s.data.dropWhile Char.isWhitespace).reverse.dropWhile Char.isWhitespace).reverse)

/-- Body of the `try` block of `generateQuizQuestions` (`geminiService.ts`
lines 77-101): provider errors, the explicit empty-response throw, and JSON
parse failures all leave the block as errors; a parsed question list is
shuffled and filtered. `parse` models `JSON.parse` (`none` = throw). -/
def generateQuizQuestionsTry (provider : ProviderResult) (parse : String → Option (List Question))
    (rnd : Nat → Nat → Nat) : Except String (List Question) :=
  match provider with
  | .err => .error "provider call failed"
  | .ok text =>
    if jsTrim text == "" then .error "Received empty response from AI model."
    else
      match parse (jsTrim text) with
      | none => .error "JSON parse failed"
      | some questions => .ok (processQuestions rnd questions)

/-- The exported `generateQuizQuestions` of `geminiService.ts` lines 69-107:
the missing-credential check throws before the `try` block (and before any
provider interaction), while every error escaping the `try` block is caught
and rethrown with the single generic user-facing message. -/
def generateQuizQuestions (apiKey : Option String) (provider : ProviderResult)
    (parse : String → Option (List Question)) (rnd : Nat → Nat → Nat) :
    Except String (List Question) :=
  if !jsTruthyKey apiKey then .error "API_KEY environment variable not set."
  else
    match generateQuizQuestionsTry provider parse rnd with
    | .error _ =>
      .error "Failed to communicate with the AI model. Please check your API key and try again."
    | .ok qs => .ok qs

/-- Decoded pronunciation audio buffer (normalized samples); the claims treat
its contents as opaque. -/
abbrev AudioBuf : Type := List ℚ

/-- Mutable state of the quiz runner (`QuizScreen.tsx` lines 54-62): question
index, accumulated answers, the lock on the selected option, the audio cache
keyed by question index (newest binding first, as JS object spread updates),
the playback flags and the volume. -/
structure QuizRunnerState where
  currentQuestionIndex : Nat
  userAnswers : List UserAnswer
  selectedOption : Option String
  isAudioLoading : Bool
  isPlaying : Bool
  audioCache : List (Nat × AudioBuf)
  volume : ℚ
deriving DecidableEq

/-- Audio cue effect requested by `handleAnswerSelect`: `playCorrectSound` or
`playIncorrectSound` from `audioEffects.ts`. -/
inductive Cue where
  | correct
  | incorrect
deriving DecidableEq

/-- JS truthiness of the `selectedOption` state, as tested by the guards
`if (selectedOption) return` (`QuizScreen.tsx` line 157) and
`isAudioLoading || selectedOption` (line 114): `null` and the empty string
are both falsy, so a selected empty-string option does not lock. -/
def jsTruthySelected : Option String → Bool
  | none => false
  | some o => !(o == "")

/-- Transition of `handleAnswerSelect` (`QuizScreen.tsx` lines 156-182),
including the deferred `setTimeout` continuation of lines 174-181. Returns
the state once the transition (and, when scheduled, the 800 ms continuation)
has run, the cue played, and the answer list handed to `onFinish` (when this
was the last question). If a JS-truthy answer is already selected the handler
returns at once (line 157, `if (selectedOption) return`; a selected empty
string is falsy and does not lock). An out-of-range question index (on which
the source would fault reading `currentQuestion`) is modelled as a no-op; the
claims only concern in-range states. -/
def handleAnswerSelect (questions : List Question) (s : QuizRunnerState) (answer : String) :
    QuizRunnerState × Option Cue × Option (List UserAnswer) :=
  if jsTruthySelected s.selectedOption then (s, none, none)
  else
    match questions.get? s.currentQuestionIndex with
    | none => (s, none, none)
    | some q =>
      let cue : Cue := if answer == q.correctAnswer then .correct else .incorrect
      let newAnswers := s.userAnswers ++ [⟨s.currentQuestionIndex, answer⟩]
      let s1 := { s with isPlaying := false, selectedOption := some answer,
                         userAnswers := newAnswers }
      if s.currentQuestionIndex < questions.length - 1 then
        ({ s1 with currentQuestionIndex := s.currentQuestionIndex + 1,
                   selectedOption := none }, some cue, none)
      else
        (s1, some cue, some newAnswers)

/-- Transition of `handlePlayPauseToggle` (`QuizScreen.tsx` lines 113-146).
`fetchResult` models the awaited `generatePronunciation` call together with
`decodeAudioData` (`none` = the fetch or the decode threw). The returned flag
records whether the catch block ran (`console.error` logged). The guard tests
JS truthiness of `selectedOption` (line 114); the guard, the pause branch and
the cache hit never consult `fetchResult`. -/
def handlePlayPauseToggle (s : QuizRunnerState) (fetchResult : Option AudioBuf) :
    QuizRunnerState × Bool :=
  if s.isAudioLoading || jsTruthySelected s.selectedOption then (s, false)
  else if s.isPlaying then ({ s with isPlaying := false }, false)
  else
    match s.audioCache.lookup s.currentQuestionIndex with
    | some _ => ({ s with isPlaying := true }, false)
    | none =>
      match fetchResult with
      | some buf =>
        ({ s with isPlaying := true, isAudioLoading := false,
                  audioCache := (s.currentQuestionIndex, buf) :: s.audioCache }, false)
      | none => ({ s with isPlaying := false, isAudioLoading := false }, true)

/-- The source loop with accumulator computes the specification scan, falling
back to the accumulator when the scan passes no level. -/
theorem passedLevelAux_eq_scan (questions : List Question) (userAnswers : List UserAnswer)
    (l : List String) (acc : Option String) :
    passedLevelAux questions userAnswers l acc =
      match specEstimateScan questions userAnswers l with
      | some m => some m
      | none => acc := by
  induction l generalizing acc with
  | nil => rfl
  | cons lv rest ih =>
    by_cases h : passesLevel questions userAnswers lv
    · rw [passedLevelAux, if_pos h, ih, specEstimateScan, if_pos h]
      cases specEstimateScan questions userAnswers rest <;> rfl
    · rw [passedLevelAux, if_neg h, specEstimateScan, if_neg (by simpa using h)]

/-- The accumulator loop of the source started from `null` is exactly the
specification scan. -/
theorem passedLevel_eq_scan (questions : List Question) (userAnswers : List UserAnswer)
    (lang : Language) :
    passedLevel questions userAnswers lang =
      specEstimateScan questions userAnswers (LEVEL_ORDER lang) := by
  rw [passedLevel, passedLevelAux_eq_scan]
  cases specEstimateScan questions userAnswers (LEVEL_ORDER lang) <;> rfl

/-- A level that passes the threshold has at least one question. -/
theorem passesLevel_present (questions : List Question) (userAnswers : List UserAnswer)
    (lv : String) (h : passesLevel questions userAnswers lv = true) :
    0 < totalByLevel questions lv := by
  by_contra h0
  have ht : totalByLevel questions lv = 0 := Nat.eq_zero_of_not_pos h0
  have : levelAccuracy questions userAnswers lv = 0 := by
    rw [levelAccuracy, if_neg (by omega)]
  rw [passesLevel, this] at h
  norm_num at h

/-- A level with no questions fails the threshold. -/
theorem passesLevel_absent (questions : List Question) (userAnswers : List UserAnswer)
    (lv : String) (h : totalByLevel questions lv = 0) :
    passesLevel questions userAnswers lv = false := by
  have : levelAccuracy questions userAnswers lv = 0 := by
    rw [levelAccuracy, if_neg (by omega)]
  rw [passesLevel, this]
  norm_num

/-- C1. For every question list, answer list, and language track, the
estimator walks the ordered level list of the language from lowest to
highest, passes a level exactly when its accuracy (0 when no questions exist
at that level) is at least 0.6, stops at the first failing level, and the
estimate is the highest passed level. -/
theorem c1_estimator_walk (questions : List Question) (userAnswers : List UserAnswer)
    (lang : Language) :
    passedLevel questions userAnswers lang =
        specEstimateScan questions userAnswers (LEVEL_ORDER lang)
      ∧ (∀ lv, passesLevel questions userAnswers lv = true ↔
          (3 / 5 : ℚ) ≤ levelAccuracy questions userAnswers lv)
      ∧ (∀ lv, totalByLevel questions lv = 0 → levelAccuracy questions userAnswers lv = 0)
      ∧ (∀ m, passedLevel questions userAnswers lang = some m →
          finalLevel questions userAnswers lang = m) := by
  refine ⟨passedLevel_eq_scan questions userAnswers lang, fun lv => by simp [passesLevel],
    fun lv h => ?_, fun m h => ?_⟩
  · rw [levelAccuracy, if_neg (by omega)]
  · rw [finalLevel.eq_def, h]

unseal Rat.add Rat.mul Rat.inv in
/-- Witness for C1 at a concrete input: a single level-1 question answered
correctly makes the scan pass level 1 and stop at the absent level 2, and the
estimate is the passed level. -/
theorem c1_estimator_walk_witness :
    finalLevel [⟨"w", ["a", "b", "c", "d"], "a", "1", none⟩] [⟨0, "a"⟩] Language.hsk = "1" :=
  (c1_estimator_walk [⟨"w", ["a", "b", "c", "d"], "a", "1", none⟩] [⟨0, "a"⟩]
    Language.hsk).2.2.2 "1" (by decide)

/-- Levels without questions make the specification scan yield nothing. -/
theorem specEstimateScan_absent (questions : List Question) (userAnswers : List UserAnswer)
    (l : List String) (h : ∀ lv ∈ l, totalByLevel questions lv = 0) :
    specEstimateScan questions userAnswers l = none := by
  cases l with
  | nil => rfl
  | cons lv rest =>
    rw [specEstimateScan,
      if_neg (by simp [passesLevel_absent questions userAnswers lv (h lv (by simp))])]

/-- The specification scan over a passing initial segment followed by a
failing remainder returns the last level of the initial segment. -/
theorem specEstimateScan_concat (questions : List Question) (userAnswers : List UserAnswer)
    (pre : List String) (m : String) (suf : List String)
    (hpre : ∀ lv ∈ pre, passesLevel questions userAnswers lv = true)
    (hm : passesLevel questions userAnswers m = true)
    (hsuf : ∀ lv ∈ suf, totalByLevel questions lv = 0) :
    specEstimateScan questions userAnswers (pre ++ m :: suf) = some m := by
  induction pre with
  | nil =>
    rw [List.nil_append, specEstimateScan, if_pos hm,
      specEstimateScan_absent questions userAnswers suf hsuf]
    rfl
  | cons p pre ih =>
    rw [List.cons_append, specEstimateScan, if_pos (hpre p (by simp)),
      ih (fun lv hlv => hpre lv (by simp [hlv]))]
    rfl

/-- A run of levels without questions contributes no maximum present level. -/
theorem maxLevelPresent_absent (questions : List Question) (l : List String)
    (h : ∀ lv ∈ l, totalByLevel questions lv = 0) :
    maxLevelPresent questions l = none := by
  induction l with
  | nil => rfl
  | cons lv rest ih =>
    rw [maxLevelPresent, ih (fun x hx => h x (by simp [hx]))]
    simp [h lv (by simp)]

/-- The maximum present level of a present initial segment followed by an
absent remainder is the last level of the initial segment. -/
theorem maxLevelPresent_concat (questions : List Question) (pre : List String) (m : String)
    (suf : List String) (hm : 0 < totalByLevel questions m)
    (hsuf : ∀ lv ∈ suf, totalByLevel questions lv = 0) :
    maxLevelPresent questions (pre ++ m :: suf) = some m := by
  induction pre with
  | nil =>
    rw [List.nil_append, maxLevelPresent, maxLevelPresent_absent questions suf hsuf]
    simp [hm]
  | cons p pre ih => rw [List.cons_append, maxLevelPresent, ih]

unseal Rat.add Rat.mul Rat.inv in
/-- C2 counterexample: an HSK question set with questions only at levels 1
and 3, all answered correctly. Every level that appears in the question set
has accuracy 1 ≥ 0.6 (and every track level is absent or passing), the
maximum level present is 3, yet the estimate is 1, because the absent level 2
has accuracy 0 and stops the scan. -/
theorem c2_counterexample :
    ((LEVEL_ORDER Language.hsk).all (fun lv =>
        decide (totalByLevel [⟨"w1", ["a", "b", "c", "d"], "a", "1", none⟩,
            ⟨"w2", ["a", "b", "c", "d"], "a", "3", none⟩] lv = 0)
        || passesLevel [⟨"w1", ["a", "b", "c", "d"], "a", "1", none⟩,
            ⟨"w2", ["a", "b", "c", "d"], "a", "3", none⟩] [⟨0, "a"⟩, ⟨1, "a"⟩] lv) = true)
    ∧ maxLevelPresent [⟨"w1", ["a", "b", "c", "d"], "a", "1", none⟩,
        ⟨"w2", ["a", "b", "c", "d"], "a", "3", none⟩] (LEVEL_ORDER Language.hsk) = some "3"
    ∧ finalLevel [⟨"w1", ["a", "b", "c", "d"], "a", "1", none⟩,
        ⟨"w2", ["a", "b", "c", "d"], "a", "3", none⟩] [⟨0, "a"⟩, ⟨1, "a"⟩] Language.hsk = "1"
    ∧ finalLevel [⟨"w1", ["a", "b", "c", "d"], "a", "1", none⟩,
        ⟨"w2", ["a", "b", "c", "d"], "a", "3", none⟩] [⟨0, "a"⟩, ⟨1, "a"⟩] Language.hsk
        ≠ "3" := by
  refine ⟨by decide, by decide, by decide, by decide⟩

/-- C2 amended. If the ordered level list of the track splits as
`pre ++ m :: suf` where every level of `pre` and `m` itself pass the 0.6
threshold and no questions exist at any level of `suf`, then `m` is the
maximum level present in the question set and the estimated level equals `m`.
(The original claim fails when a level below the maximum present is absent
from the question set: its accuracy counts as 0 and the scan stops there.) -/
theorem c2_amended (questions : List Question) (userAnswers : List UserAnswer) (lang : Language)
    (pre : List String) (m : String) (suf : List String)
    (horder : LEVEL_ORDER lang = pre ++ m :: suf)
    (hpre : ∀ lv ∈ pre, passesLevel questions userAnswers lv = true)
    (hm : passesLevel questions userAnswers m = true)
    (hsuf : ∀ lv ∈ suf, totalByLevel questions lv = 0) :
    finalLevel questions userAnswers lang = m
      ∧ maxLevelPresent questions (LEVEL_ORDER lang) = some m := by
  have hscan : passedLevel questions userAnswers lang = some m := by
    rw [passedLevel_eq_scan, horder,
      specEstimateScan_concat questions userAnswers pre m suf hpre hm hsuf]
  constructor
  · rw [finalLevel.eq_def, hscan]
  · rw [horder, maxLevelPresent_concat questions pre m suf
      (passesLevel_present questions userAnswers m hm) hsuf]

unseal Rat.add Rat.mul Rat.inv in
/-- Witness for C2 amended at a concrete input: questions at levels 1 and 2,
all answered correctly; the estimate and the maximum present level are both
level 2. -/
theorem c2_amended_witness :
    finalLevel [⟨"w1", ["a", "b", "c", "d"], "a", "1", none⟩,
        ⟨"w2", ["a", "b", "c", "d"], "a", "2", none⟩] [⟨0, "a"⟩, ⟨1, "a"⟩] Language.hsk = "2"
      ∧ maxLevelPresent [⟨"w1", ["a", "b", "c", "d"], "a", "1", none⟩,
          ⟨"w2", ["a", "b", "c", "d"], "a", "2", none⟩] (LEVEL_ORDER Language.hsk)
        = some "2" :=
  c2_amended [⟨"w1", ["a", "b", "c", "d"], "a", "1", none⟩,
      ⟨"w2", ["a", "b", "c", "d"], "a", "2", none⟩] [⟨0, "a"⟩, ⟨1, "a"⟩] Language.hsk
    ["1"] "2" ["3", "4", "5", "6"] (by decide) (by decide) (by decide) (by decide)

/-- C3. If every level of the track fails the 0.6 threshold, the estimate is
the language floor (1 / 4.0 / A1) when the raw score is strictly greater than
20, and the explicit below-minimum label otherwise. -/
theorem c3_no_pass_fallback (questions : List Question) (userAnswers : List UserAnswer)
    (lang : Language)
    (h : ∀ lv ∈ LEVEL_ORDER lang, levelAccuracy questions userAnswers lv < 3 / 5) :
    finalLevel questions userAnswers lang =
      if 20 < calculatedScore questions userAnswers then
        (match lang with
          | .hsk => "1"
          | .ielts => "4.0"
          | .dele => "A1")
      else
        (match lang with
          | .hsk => "Below 1"
          | .ielts => "Below 4.0"
          | .dele => "Below A1") := by
  have hnone : passedLevel questions userAnswers lang = none := by
    rw [passedLevel_eq_scan]
    cases horder : LEVEL_ORDER lang with
    | nil => rfl
    | cons lv rest =>
      have hfail : passesLevel questions userAnswers lv = false := by
        have := h lv (by rw [horder]; simp)
        simp [passesLevel, not_le.mpr this]
      rw [specEstimateScan, if_neg (by simp [hfail])]
  rw [finalLevel.eq_def, hnone]
  cases lang <;> rfl

unseal Rat.add Rat.mul Rat.inv in
/-- Witness for C3 at a concrete input: one level-1 question answered wrong,
so every level fails, the score is 0 ≤ 20, and the estimate is the
below-minimum label. -/
theorem c3_no_pass_fallback_witness :
    finalLevel [⟨"w", ["a", "b", "c", "d"], "a", "1", none⟩] [⟨0, "b"⟩] Language.hsk =
      if 20 < calculatedScore [⟨"w", ["a", "b", "c", "d"], "a", "1", none⟩] [⟨0, "b"⟩] then "1"
      else "Below 1" :=
  c3_no_pass_fallback [⟨"w", ["a", "b", "c", "d"], "a", "1", none⟩] [⟨0, "b"⟩] Language.hsk
    (by decide)

/-- C4. The raw score is the integer nearest to correct-count divided by
question-count times 100 (ties rounded up, as `Math.round` does): it lies in
the half-open interval centred at the exact percentage. -/
theorem c4_score_rounding (questions : List Question) (userAnswers : List UserAnswer)
    (h : questions.length ≠ 0) :
    100 * (correctAnswersCount questions userAnswers : ℚ) / (questions.length : ℚ) - 1 / 2
        < (calculatedScore questions userAnswers : ℚ)
      ∧ (calculatedScore questions userAnswers : ℚ)
        ≤ 100 * (correctAnswersCount questions userAnswers : ℚ) / (questions.length : ℚ)
          + 1 / 2 := by
  have hx : ((correctAnswersCount questions userAnswers : ℚ) / (questions.length : ℚ)) * 100 =
      100 * (correctAnswersCount questions userAnswers : ℚ) / (questions.length : ℚ) := by
    ring
  constructor
  · have := Int.lt_floor_add_one
      (((correctAnswersCount questions userAnswers : ℚ) / (questions.length : ℚ)) * 100 + 1 / 2)
    rw [calculatedScore, ← hx]
    linarith
  · have := Int.floor_le
      (((correctAnswersCount questions userAnswers : ℚ) / (questions.length : ℚ)) * 100 + 1 / 2)
    rw [calculatedScore, ← hx]
    linarith

set_option maxHeartbeats 1000000 in
unseal Rat.add Rat.mul Rat.inv in
/-- Witness for C4: 18 correct answers out of 30 questions give a raw score
of 60, and the nearest-integer bounds of the theorem hold at a concrete
nonempty input (one question, answered correctly, score 100). -/
theorem c4_score_rounding_witness :
    calculatedScore (List.replicate 30 ⟨"w", ["a", "b", "c", "d"], "a", "1", none⟩)
        ((List.range 18).map (fun i => ⟨i, "a"⟩) ++ (List.range 12).map (fun i => ⟨18 + i, "b"⟩))
        = 60
      ∧ (100 * (correctAnswersCount [⟨"w", ["a", "b"], "a", "1", none⟩] [⟨0, "a"⟩] : ℚ)
            / (([⟨"w", ["a", "b"], "a", "1", none⟩] : List Question).length : ℚ) - 1 / 2
          < (calculatedScore [⟨"w", ["a", "b"], "a", "1", none⟩] [⟨0, "a"⟩] : ℚ)
          ∧ (calculatedScore [⟨"w", ["a", "b"], "a", "1", none⟩] [⟨0, "a"⟩] : ℚ)
            ≤ 100 * (correctAnswersCount [⟨"w", ["a", "b"], "a", "1", none⟩] [⟨0, "a"⟩] : ℚ)
              / (([⟨"w", ["a", "b"], "a", "1", none⟩] : List Question).length : ℚ) + 1 / 2) :=
  ⟨by
    have h1 : correctAnswersCount
        (List.replicate 30 ⟨"w", ["a", "b", "c", "d"], "a", "1", none⟩)
        ((List.range 18).map (fun i => ⟨i, "a"⟩)
          ++ (List.range 12).map (fun i => ⟨18 + i, "b"⟩)) = 18 := by decide
    have h2 : (List.replicate 30
        (⟨"w", ["a", "b", "c", "d"], "a", "1", none⟩ : Question)).length = 30 := by decide
    rw [calculatedScore, h1, h2]
    decide,
    c4_score_rounding [⟨"w", ["a", "b"], "a", "1", none⟩] [⟨0, "a"⟩] (by decide)⟩

/-- C5. Every question returned by `generateQuizQuestions` (after the
per-question shuffle and the validation filter) has exactly 4 options, and
its correct answer is among them. -/
theorem c5_filter_guarantee (apiKey : Option String) (provider : ProviderResult)
    (parse : String → Option (List Question)) (rnd : Nat → Nat → Nat) (qs : List Question)
    (q : Question) (hok : generateQuizQuestions apiKey provider parse rnd = Except.ok qs)
    (hq : q ∈ qs) : q.options.length = 4 ∧ q.correctAnswer ∈ q.options := by
  have hproc : ∃ questions, qs = processQuestions rnd questions := by
    rw [generateQuizQuestions] at hok
    by_cases hkey : jsTruthyKey apiKey
    · rw [if_neg (by simp [hkey])] at hok
      rcases htry : generateQuizQuestionsTry provider parse rnd with e | qs0
      · rw [htry] at hok
        exact absurd hok (by simp)
      · rw [htry] at hok
        have hqs : qs = qs0 := by
          simp only [Except.ok.injEq] at hok
          exact hok.symm
        rcases provider with text | _
        · rw [generateQuizQuestionsTry] at htry
          by_cases hempty : jsTrim text == ""
          · rw [if_pos hempty] at htry
            exact absurd htry (by simp)
          · rw [if_neg hempty] at htry
            rcases hparse : parse (jsTrim text) with _ | questions
            · rw [hparse] at htry
              exact absurd htry (by simp)
            · rw [hparse] at htry
              simp only [Except.ok.injEq] at htry
              exact ⟨questions, by rw [hqs, ← htry]⟩
        · rw [generateQuizQuestionsTry] at htry
          exact absurd htry (by simp)
    · rw [if_pos (by simp [hkey])] at hok
      exact absurd hok (by simp)
  rcases hproc with ⟨questions, hqs⟩
  rw [hqs, processQuestions] at hq
  have hmem := List.of_mem_filter hq
  rw [Bool.and_eq_true, beq_iff_eq] at hmem
  exact ⟨hmem.1, List.mem_of_elem_eq_true hmem.2⟩

unseal Rat.add Rat.mul Rat.inv in
/-- Witness for C5 at a concrete run: a provider response parsed as one
question whose options are four copies of the correct answer (so every
shuffle fixes them); the service returns it and the guarantee holds. -/
theorem c5_filter_guarantee_witness :
    (⟨"w", ["a", "a", "a", "a"], "a", "1", none⟩ : Question).options.length = 4
      ∧ (⟨"w", ["a", "a", "a", "a"], "a", "1", none⟩ : Question).correctAnswer
        ∈ (⟨"w", ["a", "a", "a", "a"], "a", "1", none⟩ : Question).options :=
  c5_filter_guarantee (some "key") (ProviderResult.ok "r")
    (fun _ => some [⟨"w", ["a", "a", "a", "a"], "a", "1", none⟩]) (fun _ _ => 0)
    [⟨"w", ["a", "a", "a", "a"], "a", "1", none⟩] ⟨"w", ["a", "a", "a", "a"], "a", "1", none⟩
    rfl (by decide)

/-- C6 counterexample: the missing-credential failure surfaces the message
of the pre-`try` throw, which differs from the single generic message that
the provider-error and empty-response failures surface; so not all three
failure cases carry one and the same user-facing message. -/
theorem c6_counterexample :
    generateQuizQuestions none ProviderResult.err (fun _ => none) (fun _ _ => 0)
        = Except.error "API_KEY environment variable not set."
      ∧ generateQuizQuestions (some "key") ProviderResult.err (fun _ => none) (fun _ _ => 0)
        = Except.error
          "Failed to communicate with the AI model. Please check your API key and try again."
      ∧ generateQuizQuestions (some "key") (ProviderResult.ok "") (fun _ => none) (fun _ _ => 0)
        = Except.error
          "Failed to communicate with the AI model. Please check your API key and try again."
      ∧ "API_KEY environment variable not set."
        ≠ "Failed to communicate with the AI model. Please check your API key and try again." :=
  ⟨rfl, rfl, rfl, by decide⟩

/-- C6 amended. `generateQuizQuestions` fails in all three cases; the
provider-error and empty-response failures surface one shared generic
user-facing message, while the missing-credential failure carries its own
distinct message and is raised before any provider interaction (the result
does not depend on the provider outcome at all). -/
theorem c6_amended (apiKey : Option String) (provider : ProviderResult)
    (parse : String → Option (List Question)) (rnd : Nat → Nat → Nat) :
    (jsTruthyKey apiKey = false →
        generateQuizQuestions apiKey provider parse rnd
          = Except.error "API_KEY environment variable not set."
        ∧ ∀ provider2 parse2 rnd2,
            generateQuizQuestions apiKey provider2 parse2 rnd2
              = generateQuizQuestions apiKey provider parse rnd)
      ∧ (jsTruthyKey apiKey = true →
          generateQuizQuestions apiKey ProviderResult.err parse rnd
            = Except.error
              "Failed to communicate with the AI model. Please check your API key and try again.")
      ∧ (∀ text, jsTruthyKey apiKey = true → jsTrim text = "" →
          generateQuizQuestions apiKey (ProviderResult.ok text) parse rnd
            = Except.error
              "Failed to communicate with the AI model. Please check your API key and try again.")
      := by
  refine ⟨fun hkey => ⟨?_, fun provider2 parse2 rnd2 => ?_⟩, fun hkey => ?_,
    fun text hkey htrim => ?_⟩
  · rw [generateQuizQuestions, hkey]
    rfl
  · rw [generateQuizQuestions, hkey, generateQuizQuestions, hkey]
    rfl
  · rw [generateQuizQuestions, hkey]
    rfl
  · rw [generateQuizQuestions, hkey, generateQuizQuestionsTry, htrim]
    rfl

/-- Witness for C6 amended at concrete inputs: the missing-credential message
and the generic message, each produced by the amended theorem. -/
theorem c6_amended_witness :
    generateQuizQuestions none ProviderResult.err (fun _ => some []) (fun _ _ => 0)
        = Except.error "API_KEY environment variable not set."
      ∧ generateQuizQuestions (some "key") ProviderResult.err (fun _ => some []) (fun _ _ => 0)
        = Except.error
          "Failed to communicate with the AI model. Please check your API key and try again."
      ∧ generateQuizQuestions (some "key") (ProviderResult.ok " ") (fun _ => some [])
          (fun _ _ => 0)
        = Except.error
          "Failed to communicate with the AI model. Please check your API key and try again." :=
  ⟨((c6_amended none ProviderResult.err (fun _ => some []) (fun _ _ => 0)).1 (by decide)).1,
    (c6_amended (some "key") ProviderResult.err (fun _ => some []) (fun _ _ => 0)).2.1
      (by decide),
    (c6_amended (some "key") (ProviderResult.ok " ") (fun _ => some []) (fun _ _ => 0)).2.2
      " " (by decide) (by decide)⟩

/-- C7 counterexample: with the empty string selected (`selectedOption` is
set but JS-falsy, reachable since the filter does not exclude empty-string
options), the handler is not a no-op: it appends a second answer for the same
question index, plays a cue, and (here, on the last question) invokes the
finish callback. -/
theorem c7_answer_lock_counterexample :
    handleAnswerSelect [⟨"w", ["", "b"], "b", "1", none⟩]
        ⟨0, [], some "", false, false, [], 1⟩ "b"
        = (⟨0, [⟨0, "b"⟩], some "b", false, false, [], 1⟩, some Cue.correct, some [⟨0, "b"⟩])
      ∧ (handleAnswerSelect [⟨"w", ["", "b"], "b", "1", none⟩]
          ⟨0, [], some "", false, false, [], 1⟩ "b").1.userAnswers ≠ []
      ∧ (handleAnswerSelect [⟨"w", ["", "b"], "b", "1", none⟩]
          ⟨0, [], some "", false, false, [], 1⟩ "b").2.1 ≠ none :=
  ⟨rfl, by decide, by decide⟩

/-- C7 amended. When a nonempty option is already selected for the current
question (the lock is the JS truthiness test `if (selectedOption) return`, so
an empty-string selection does not lock), a further answer selection is a
complete no-op: the state is returned unchanged, no cue is played, and the
finish callback is not invoked. -/
theorem c7_answer_lock (questions : List Question) (s : QuizRunnerState) (answer o : String)
    (h : s.selectedOption = some o) (hne : o ≠ "") :
    handleAnswerSelect questions s answer = (s, none, none) := by
  rw [handleAnswerSelect.eq_def, h]
  simp [jsTruthySelected, hne]

/-- Witness for C7 at a concrete state with a nonempty selected option. -/
theorem c7_answer_lock_witness :
    handleAnswerSelect [⟨"w", ["a", "b"], "a", "1", none⟩]
        ⟨0, [], some "a", false, false, [], 1⟩ "b" =
      (⟨0, [], some "a", false, false, [], 1⟩, none, none) :=
  c7_answer_lock [⟨"w", ["a", "b"], "a", "1", none⟩] ⟨0, [], some "a", false, false, [], 1⟩
    "b" "a" rfl (by decide)

/-- C8. With no option selected and the current question in range, selecting
an answer plays the correct cue exactly when the answer matches the correct
answer of the current question (the incorrect cue otherwise), appends exactly
one entry carrying the current question index and the chosen answer, and then
either advances to the next question (finish callback not invoked) or, on the
last question, hands the full appended answer list to the finish callback. -/
theorem c8_answer_select (questions : List Question) (s : QuizRunnerState) (answer : String)
    (q : Question) (hsel : s.selectedOption = none)
    (hq : questions.get? s.currentQuestionIndex = some q) :
    (handleAnswerSelect questions s answer).2.1 =
        some (if answer == q.correctAnswer then Cue.correct else Cue.incorrect)
      ∧ (handleAnswerSelect questions s answer).1.userAnswers =
        s.userAnswers ++ [⟨s.currentQuestionIndex, answer⟩]
      ∧ (s.currentQuestionIndex < questions.length - 1 →
          (handleAnswerSelect questions s answer).1.currentQuestionIndex =
              s.currentQuestionIndex + 1
            ∧ (handleAnswerSelect questions s answer).2.2 = none)
      ∧ (¬ s.currentQuestionIndex < questions.length - 1 →
          (handleAnswerSelect questions s answer).2.2 =
            some (s.userAnswers ++ [⟨s.currentQuestionIndex, answer⟩])) := by
  rw [handleAnswerSelect.eq_def, hsel, hq]
  by_cases hlast : s.currentQuestionIndex < questions.length - 1
  · simp [jsTruthySelected, if_pos hlast, hlast]
  · simp [jsTruthySelected, if_neg hlast, hlast]

/-- Witness for C8 at a concrete state: a correct answer on the last (only)
question plays the correct cue, appends the entry, and finishes with the full
answer list. -/
theorem c8_answer_select_witness :
    (handleAnswerSelect [⟨"w", ["a", "b"], "a", "1", none⟩]
          ⟨0, [], none, false, false, [], 1⟩ "a").2.1 =
        some (if "a" == ("a" : String) then Cue.correct else Cue.incorrect)
      ∧ (handleAnswerSelect [⟨"w", ["a", "b"], "a", "1", none⟩]
          ⟨0, [], none, false, false, [], 1⟩ "a").1.userAnswers = [] ++ [⟨0, "a"⟩]
      ∧ ((0 : Nat) < ([⟨"w", ["a", "b"], "a", "1", none⟩] : List Question).length - 1 →
          (handleAnswerSelect [⟨"w", ["a", "b"], "a", "1", none⟩]
              ⟨0, [], none, false, false, [], 1⟩ "a").1.currentQuestionIndex = 0 + 1
            ∧ (handleAnswerSelect [⟨"w", ["a", "b"], "a", "1", none⟩]
                ⟨0, [], none, false, false, [], 1⟩ "a").2.2 = none)
      ∧ (¬ (0 : Nat) < ([⟨"w", ["a", "b"], "a", "1", none⟩] : List Question).length - 1 →
          (handleAnswerSelect [⟨"w", ["a", "b"], "a", "1", none⟩]
              ⟨0, [], none, false, false, [], 1⟩ "a").2.2 = some ([] ++ [⟨0, "a"⟩])) :=
  c8_answer_select [⟨"w", ["a", "b"], "a", "1", none⟩] ⟨0, [], none, false, false, [], 1⟩
    "a" ⟨"w", ["a", "b"], "a", "1", none⟩ rfl rfl

/-- C9. A pronunciation fetch or decode failure during the playback toggle
(reached with no load in flight, no locked answer, nothing playing, and no
cached audio for the current question) is logged and resets the playback
state to idle, while the accumulated answers, the current question index, the
selected option and the audio cache are left unchanged. -/
theorem c9_pronunciation_failure (s : QuizRunnerState)
    (hload : s.isAudioLoading = false) (hsel : s.selectedOption = none)
    (hplay : s.isPlaying = false)
    (hcache : s.audioCache.lookup s.currentQuestionIndex = none) :
    (handlePlayPauseToggle s none).1.userAnswers = s.userAnswers
      ∧ (handlePlayPauseToggle s none).1.currentQuestionIndex = s.currentQuestionIndex
      ∧ (handlePlayPauseToggle s none).1.selectedOption = s.selectedOption
      ∧ (handlePlayPauseToggle s none).1.audioCache = s.audioCache
      ∧ (handlePlayPauseToggle s none).1.isPlaying = false
      ∧ (handlePlayPauseToggle s none).1.isAudioLoading = false
      ∧ (handlePlayPauseToggle s none).2 = true := by
  have hred : handlePlayPauseToggle s none =
      ({ s with isPlaying := false, isAudioLoading := false }, true) := by
    rw [handlePlayPauseToggle, hload, hsel, hplay, hcache]
    rfl
  rw [hred]
  exact ⟨rfl, rfl, rfl, rfl, rfl, rfl, rfl⟩

/-- Witness for C9 at a concrete idle state with an empty cache. -/
theorem c9_pronunciation_failure_witness :
    (handlePlayPauseToggle ⟨0, [], none, false, false, [], 1⟩ none).1.userAnswers = []
      ∧ (handlePlayPauseToggle ⟨0, [], none, false, false, [], 1⟩ none).1.currentQuestionIndex
        = 0
      ∧ (handlePlayPauseToggle ⟨0, [], none, false, false, [], 1⟩ none).1.selectedOption = none
      ∧ (handlePlayPauseToggle ⟨0, [], none, false, false, [], 1⟩ none).1.audioCache = []
      ∧ (handlePlayPauseToggle ⟨0, [], none, false, false, [], 1⟩ none).1.isPlaying = false
      ∧ (handlePlayPauseToggle ⟨0, [], none, false, false, [], 1⟩ none).1.isAudioLoading = false
      ∧ (handlePlayPauseToggle ⟨0, [], none, false, false, [], 1⟩ none).2 = true :=
  c9_pronunciation_failure ⟨0, [], none, false, false, [], 1⟩ rfl rfl rfl rfl

/-- Consing the element at position `i` onto the list with position `i`
overwritten is a permutation of consing the new value onto the original
list. -/
theorem get_cons_set_perm {α : Type} (l : List α) (i : Nat) (h : i < l.length) (a : α) :
    (l.get ⟨i, h⟩ :: l.set i a).Perm (a :: l) := by
  induction l generalizing i with
  | nil => exact absurd h (by simp)
  | cons b t ih =>
    cases i with
    | zero => exact List.Perm.swap a b t
    | succ i =>
      have hi : i < t.length := by simpa using h
      exact ((List.Perm.swap b (t.get ⟨i, hi⟩) (t.set i a)).trans
        (List.Perm.cons b (ih i hi))).trans (List.Perm.swap a b t)

/-- Setting position `i` to the value at position `j` and position `j` to the
value at position `i` permutes the list. -/
theorem swap_sets_perm {α : Type} (l : List α) (i j : Nat) (a b : α)
    (hi : l.get? i = some a) (hj : l.get? j = some b) :
    ((l.set i b).set j a).Perm l := by
  induction l generalizing i j with
  | nil => simp at hi
  | cons c t ih =>
    cases i with
    | zero =>
      have ha : c = a := by simpa using hi
      cases j with
      | zero =>
        rw [← ha]
        exact List.Perm.refl _
      | succ j =>
        have hj2 : t.get? j = some b := by simpa using hj
        obtain ⟨hjlt, hget⟩ := List.get?_eq_some.mp hj2
        rw [← ha]
        have hperm := get_cons_set_perm t j hjlt c
        rw [hget] at hperm
        exact hperm
    | succ i =>
      cases j with
      | zero =>
        have hb : c = b := by simpa using hj
        have hi2 : t.get? i = some a := by simpa using hi
        obtain ⟨hilt, hget⟩ := List.get?_eq_some.mp hi2
        rw [← hb]
        have hperm := get_cons_set_perm t i hilt c
        rw [hget] at hperm
        exact hperm
      | succ j =>
        have hi2 : t.get? i = some a := by simpa using hi
        have hj2 : t.get? j = some b := by simpa using hj
        exact List.Perm.cons c (ih i j hi2 hj2)

/-- The JS destructuring swap always produces a permutation of its input. -/
theorem swapJS_perm {α : Type} (l : List α) (i j : Nat) : (swapJS l i j).Perm l := by
  rw [swapJS.eq_def]
  rcases hi : l.get? i with _ | a
  · exact List.Perm.refl l
  · rcases hj : l.get? j with _ | b
    · exact List.Perm.refl l
    · exact swap_sets_perm l i j a b hi hj

/-- Every pass of the shuffle loop preserves the multiset of elements. -/
theorem shuffleAux_perm {α : Type} (rnd : Nat → Nat) (n : Nat) (l : List α) :
    (shuffleAux rnd n l).Perm l := by
  induction n generalizing l with
  | zero => exact List.Perm.refl l
  | succ n ih =>
    exact (ih (swapJS l (n + 1) (rnd (n + 1)))).trans
      (swapJS_perm l (n + 1) (rnd (n + 1)))

/-- C10. For every draw function whose draw at loop index `i` lies in
`[0, i]` (as `Math.floor(Math.random() * (i + 1))` does), `shuffleArray`
returns a permutation of its input: same length, same multiset, membership
preserved; in particular the shuffled options contain any given correct
answer exactly when the original options did, so the subsequent filter keeps
the same questions. -/
theorem c10_shuffle_perm {α : Type} (rnd : Nat → Nat) (l : List α)
    (hr : ∀ i, rnd i ≤ i) :
    (shuffleArray rnd l).Perm l
      ∧ (shuffleArray rnd l).length = l.length
      ∧ (∀ x, x ∈ shuffleArray rnd l ↔ x ∈ l) := by
  have hp : (shuffleArray rnd l).Perm l := shuffleAux_perm rnd (l.length - 1) l
  exact ⟨hp, hp.length_eq, fun x => hp.mem_iff⟩

/-- Witness for C10 at a concrete draw function and list. -/
theorem c10_shuffle_perm_witness :
    (shuffleArray (fun _ => 0) ["a", "b", "c", "d"]).Perm ["a", "b", "c", "d"] :=
  (c10_shuffle_perm (fun _ => 0) ["a", "b", "c", "d"] (fun i => Nat.zero_le i)).1

end Quiz
